import Mathlib

/-!
Shallow embedding of the `mag_model` repository (files `settings.py` and
`utilities.py`): the path constants built with `os.path.join`, the
`read_csv` file reader, and the `get_dates` date-normalisation function,
together with the pieces of the Python standard library and of
`astropy.time` that these functions exercise.
-/

set_option maxHeartbeats 4000000

deriving instance DecidableEq for Except

namespace MagModel

/-- Python exception kinds raised by the modelled code paths. -/
inductive PyError where
  | valueError
  | attributeError
  | fileNotFoundError
  deriving DecidableEq, Repr

/-- A naive `datetime.datetime`: calendar fields, no timezone. -/
structure Datetime where
  year : ℕ
  month : ℕ
  day : ℕ
  hour : ℕ
  minute : ℕ
  second : ℕ
  microsecond : ℕ
  deriving DecidableEq, Repr

/-- Value of a list of ASCII digit characters read in base 10. -/
def natVal (ds : List Char) : ℕ :=
  ds.foldl (fun a c => 10 * a + (c.toNat - 48)) 0

/-- Zero-padded `k`-digit ASCII rendering of `n` (low `k` digits kept). -/
def natDigits : ℕ → ℕ → List Char
  | 0, _ => []
  | k + 1, n => natDigits k (n / 10) ++ [Char.ofNat (48 + n % 10)]

/-- Maximal ASCII-digit run at the head of a character list. -/
def takeDigits : List Char → List Char × List Char
  | [] => ([], [])
  | c :: cs =>
    if c.isDigit then
      let (ds, r) := takeDigits cs
      (c :: ds, r)
    else ([], c :: cs)

/-- Fields recovered by the shared timestamp scan. -/
structure RawParse where
  y : ℕ
  m : ℕ
  d : ℕ
  h : ℕ
  mi : ℕ
  sec : ℕ
  frac : Option (List Char)
  deriving DecidableEq, Repr

/-- CPython `_strptime`'s match for a 4-digit year field (`%Y`). -/
def parseYear (cs : List Char) : Option (ℕ × List Char) :=
  let (ds, r) := takeDigits cs
  if ds.length = 4 then some (natVal ds, r) else none

/-- CPython `_strptime`'s one-or-two-digit numeric field with an
inclusive value range. -/
def parseNum2 (lo hi : ℕ) (cs : List Char) : Option (ℕ × List Char) :=
  let (ds, r) := takeDigits cs
  if (ds.length = 1 ∨ ds.length = 2) ∧ lo ≤ natVal ds ∧ natVal ds ≤ hi then
    some (natVal ds, r)
  else none

/-- Consume one expected literal character. -/
def expect (c : Char) : List Char → Option (List Char)
  | [] => none
  | c' :: r => if c' = c then some r else none

/-- Common skeleton of CPython `_strptime`'s match for the format
`%Y-%m-%dT%H:%M:%S.%f` and of astropy's strptime-based ISO("T") string
parsing: year-month-day `T` hour:minute:second with an optional
fractional part. Digit runs are maximal; field widths and value ranges
follow `_strptime`'s regexes (month `1..12`, day `1..31`, hour `0..23`,
minute `0..59`, second `0..61`). -/
def coreParse (cs : List Char) : Option RawParse :=
  match parseYear cs with
  | none => none
  | some (y, cs) =>
  match expect '-' cs with
  | none => none
  | some cs =>
  match parseNum2 1 12 cs with
  | none => none
  | some (m, cs) =>
  match expect '-' cs with
  | none => none
  | some cs =>
  match parseNum2 1 31 cs with
  | none => none
  | some (d, cs) =>
  match expect 'T' cs with
  | none => none
  | some cs =>
  match parseNum2 0 23 cs with
  | none => none
  | some (h, cs) =>
  match expect ':' cs with
  | none => none
  | some cs =>
  match parseNum2 0 59 cs with
  | none => none
  | some (mi, cs) =>
  match expect ':' cs with
  | none => none
  | some cs =>
  match parseNum2 0 61 cs with
  | none => none
  | some (sec, cs) =>
  if cs.isEmpty then some ⟨y, m, d, h, mi, sec, none⟩
  else
    match expect '.' cs with
    | none => none
    | some rest =>
      let (fds, r2) := takeDigits rest
      if fds ≠ [] ∧ r2 = [] then some ⟨y, m, d, h, mi, sec, some fds⟩
      else none

/-- Gregorian leap-year predicate. -/
def isLeap (y : ℕ) : Bool :=
  y % 4 == 0 && (y % 100 != 0 || y % 400 == 0)

/-- Length of a month in the proleptic Gregorian calendar. -/
def daysInMonth (y m : ℕ) : ℕ :=
  if m = 2 then (if isLeap y then 29 else 28)
  else if m = 4 ∨ m = 6 ∨ m = 9 ∨ m = 11 then 30
  else 31

/-- `datetime.datetime.strptime(s, "%Y-%m-%dT%H:%M:%S.%f")`: the format
match (fraction mandatory, at most six digits, right-padded with zeros
to microseconds) followed by the `datetime` constructor's validation
(year at least 1, real calendar day, second at most 59). -/
def strptime (s : String) : Option Datetime :=
  match coreParse s.data with
  | none => none
  | some r =>
    match r.frac with
    | none => none
    | some fds =>
      if fds.length ≤ 6 ∧ 1 ≤ r.y ∧ r.d ≤ daysInMonth r.y r.m ∧ r.sec ≤ 59 then
        some ⟨r.y, r.m, r.d, r.h, r.mi, r.sec, natVal fds * 10 ^ (6 - fds.length)⟩
      else none

/-- An exact rational value: numerator over (positive) denominator,
kept unnormalised so that all arithmetic stays integer arithmetic.  It
models Python floats (every binary64 value is such a rational) and the
exact Julian Date values carried by `astropy.time.Time`. -/
structure Frac where
  num : ℤ
  den : ℕ
  deriving DecidableEq, Repr

def Frac.ofInt (z : ℤ) : Frac := ⟨z, 1⟩

def Frac.add (a b : Frac) : Frac :=
  ⟨a.num * b.den + b.num * a.den, a.den * b.den⟩

def Frac.sub (a b : Frac) : Frac :=
  ⟨a.num * b.den - b.num * a.den, a.den * b.den⟩

/-- Divide by a natural number. -/
def Frac.divN (a : Frac) (n : ℕ) : Frac := ⟨a.num, a.den * n⟩

/-- Multiply by a natural number. -/
def Frac.mulN (a : Frac) (n : ℕ) : Frac := ⟨a.num * n, a.den⟩

/-- Mathematical floor of the value (floor division). -/
def Frac.floor (a : Frac) : ℤ := Int.fdiv a.num a.den

/-- Julian Day Number of a proleptic-Gregorian calendar date
(Fliegel–Van Flandern; `Int.tdiv` truncates toward zero as the original
Fortran integer division requires). -/
def jdnG (y m d : ℕ) : ℤ :=
  let Y : ℤ := y
  let M : ℤ := m
  let D : ℤ := d
  Int.tdiv (1461 * (Y + 4800 + Int.tdiv (M - 14) 12)) 4
    + Int.tdiv (367 * (M - 2 - 12 * Int.tdiv (M - 14) 12)) 12
    - Int.tdiv (3 * (Int.tdiv (Y + 4900 + Int.tdiv (M - 14) 12) 100)) 4
    + D - 32075

/-- Julian Date of a calendar instant; `fsec` is the fractional-second
part. -/
def jdFrom (y m d h mi sec : ℕ) (fsec : Frac) : Frac :=
  ((Frac.ofInt (jdnG y m d)).sub ⟨1, 2⟩).add
    (((Frac.ofInt (3600 * h + 60 * mi + sec : ℕ)).add fsec).divN 86400)

/-- Model of an `astropy.time.Time` instant: its Julian Date value and
its `format` attribute. -/
structure AstropyTime where
  jd : Frac
  format : String
  deriving DecidableEq, Repr

/-- `astropy.time.Time(s)` on an ISO("T") string: strptime-style lenient
parse (fraction optional, any number of digits) plus calendar
validation; yields the instant with `format = "isot"`. -/
def timeFromString (s : String) : Option AstropyTime :=
  match coreParse s.data with
  | none => none
  | some r =>
    if r.d ≤ daysInMonth r.y r.m ∧ r.sec ≤ 59 then
      let fsec : Frac :=
        match r.frac with
        | none => ⟨0, 1⟩
        | some fds => ⟨(natVal fds : ℤ), 10 ^ fds.length⟩
      some ⟨jdFrom r.y r.m r.d r.h r.mi r.sec fsec, "isot"⟩
    else none

/-- Calendar date of a Julian Day Number (inverse Fliegel–Van
Flandern). -/
def invJdn (jdn : ℤ) : ℤ × ℤ × ℤ :=
  let L0 := jdn + 68569
  let N := Int.tdiv (4 * L0) 146097
  let L1 := L0 - Int.tdiv (146097 * N + 3) 4
  let I := Int.tdiv (4000 * (L1 + 1)) 1461001
  let L2 := L1 - Int.tdiv (1461 * I) 4 + 31
  let J := Int.tdiv (80 * L2) 2447
  let D := L2 - Int.tdiv (2447 * J) 80
  let L3 := Int.tdiv J 11
  let M := J + 2 - 12 * L3
  let Y := 100 * (N - 49) + I + L3
  (Y, M, D)

/-- `Time(x, format="jd").datetime`: convert a Julian Date to a
`datetime.datetime`, rounding to the nearest microsecond; fails
(`OverflowError`/`ValueError`) outside `datetime`'s year range
`1..9999`. -/
def datetimeOfJD (x : Frac) : Option Datetime :=
  let t := x.add ⟨1, 2⟩
  let z := t.floor
  let totalMicro := (((t.sub (Frac.ofInt z)).mulN 86400000000).add ⟨1, 2⟩).floor
  let zz := if 86400000000 ≤ totalMicro then z + 1 else z
  let micI := if 86400000000 ≤ totalMicro then 0 else totalMicro
  let (Y, M, D) := invJdn zz
  if 1 ≤ Y ∧ Y ≤ 9999 ∧ 0 ≤ micI then
    let mic := micI.toNat
    some ⟨Y.toNat, M.toNat, D.toNat, mic / 3600000000,
          mic / 60000000 % 60, mic / 1000000 % 60, mic % 1000000⟩
  else none

/-- Seconds since the Unix epoch of a naive datetime taken as UTC
(glibc `mktime` under `TZ=UTC`; the sub-second part is dropped, as
`%s` formatting does). -/
def epochSeconds (dt : Datetime) : ℤ :=
  86400 * (jdnG dt.year dt.month dt.day - 2440588)
    + 3600 * dt.hour + 60 * dt.minute + dt.second

/-- Two-digit zero-padded decimal rendering. -/
def pad2 (n : ℕ) : String := if n < 10 then "0" ++ toString n else toString n

/-- `dt.strftime("%Y-%m-%dT%H:%M:%S.%s")` on glibc with `TZ=UTC`:
standard zero-padded calendar fields followed by the non-standard `%s`
directive, which prints the (signed) Unix-epoch seconds instead of a
fractional-second field. -/
def strftimeS (dt : Datetime) : String :=
  toString dt.year ++ "-" ++ pad2 dt.month ++ "-" ++ pad2 dt.day ++ "T"
    ++ pad2 dt.hour ++ ":" ++ pad2 dt.minute ++ ":" ++ pad2 dt.second
    ++ "." ++ toString (epochSeconds dt)

/-- The run-time shapes `get_dates` is exercised with: Python `str`,
`float`, `datetime.datetime` and `int` values.  A Python `int` is not an
instance of `float`, so it is a distinct variant. -/
inductive PyDate where
  | str (s : String)
  | float (x : Frac)
  | datetime (d : Datetime)
  | int (n : ℤ)
  deriving DecidableEq, Repr

/-- Value occupying the third slot of `get_dates`' result: either the
Python float that was passed in (float branch) or an
`astropy.time.Time` object (string and datetime branches). -/
inductive JdSlot where
  | float (x : Frac)
  | timeObj (t : AstropyTime)
  deriving DecidableEq, Repr

/-- `utilities.get_dates`.  Dispatch follows the source: `isinstance
(date, str)` first, then `isinstance(date, float)`, otherwise the input
is assumed datetime-like.  In the string branch `strptime` runs first
and `Time(date_str)` second, then `date_jd.format = "jd"`; in the float
branch the input is echoed as the Julian-Date slot; in the fallback
branch `date.strftime(...)` raises `AttributeError` for an `int`
input. -/
def get_dates : PyDate → Except PyError (String × Datetime × JdSlot)
  | .str s =>
    match strptime s with
    | none => .error .valueError
    | some obj =>
      match timeFromString s with
      | none => .error .valueError
      | some t => .ok (s, obj, .timeObj { t with format := "jd" })
  | .float x =>
    match datetimeOfJD x with
    | none => .error .valueError
    | some obj => .ok (strftimeS obj, obj, .float x)
  | .datetime d =>
    match timeFromString (strftimeS d) with
    | none => .error .valueError
    | some t => .ok (strftimeS d, d, .timeObj { t with format := "jd" })
  | .int _ => .error .attributeError

/-- Drop one leading LF, for CRLF row terminators read as a single
terminator. -/
def dropLF : List Char → List Char
  | '\n' :: r => r
  | r => r

theorem dropLF_length_le (cs : List Char) : (dropLF cs).length ≤ cs.length := by
  unfold dropLF
  split <;> simp

/-- Parser states of the `csv.reader` record scanner (default excel
dialect). -/
inductive CsvSt where
  | fstart
  | infield
  | inq
  | postq
  deriving DecidableEq, Repr

/-- One scan of the `csv` module's default (excel-dialect) reader over
the character stream of a file opened with `newline=''`: comma
delimiter, `"` quoting with doubled quotes, rows terminated by LF, CR
or CRLF; a blank line yields an empty row, and a final row without a
terminator is still emitted.  `field` and `row` are the accumulators,
kept reversed. -/
def csvGo (st : CsvSt) (field : List Char) (row : List String) :
    List Char → List (List String)
  | [] =>
    match st, row with
    | .fstart, [] => []
    | _, _ => [(String.mk field.reverse :: row).reverse]
  | c :: cs =>
    match st with
    | .fstart =>
      if c = '"' then csvGo .inq field row cs
      else if c = ',' then csvGo .fstart [] (String.mk field.reverse :: row) cs
      else if c = '\n' then
        (if row = [] then [] else (String.mk field.reverse :: row).reverse)
          :: csvGo .fstart [] [] cs
      else if c = '\r' then
        (if row = [] then [] else (String.mk field.reverse :: row).reverse)
          :: csvGo .fstart [] [] (dropLF cs)
      else csvGo .infield (c :: field) row cs
    | .infield =>
      if c = ',' then csvGo .fstart [] (String.mk field.reverse :: row) cs
      else if c = '\n' then
        (String.mk field.reverse :: row).reverse :: csvGo .fstart [] [] cs
      else if c = '\r' then
        (String.mk field.reverse :: row).reverse :: csvGo .fstart [] [] (dropLF cs)
      else csvGo .infield (c :: field) row cs
    | .inq =>
      if c = '"' then csvGo .postq field row cs
      else csvGo .inq (c :: field) row cs
    | .postq =>
      if c = '"' then csvGo .inq ('"' :: field) row cs
      else if c = ',' then csvGo .fstart [] (String.mk field.reverse :: row) cs
      else if c = '\n' then
        (String.mk field.reverse :: row).reverse :: csvGo .fstart [] [] cs
      else if c = '\r' then
        (String.mk field.reverse :: row).reverse :: csvGo .fstart [] [] (dropLF cs)
      else csvGo .infield (c :: field) row cs
termination_by cs => cs.length
decreasing_by
all_goals simp
all_goals exact Nat.lt_succ_of_le (dropLF_length_le _)

/-- A file system snapshot: the contents of the readable files, by
path. -/
def FileSystem : Type := String → Option String

/-- `utilities.read_csv`: `open(csv_file_path, newline='')`, run
`csv.reader` over the file and return `list(reader)`.  A path that does
not exist or cannot be opened raises `FileNotFoundError`. -/
def read_csv (fs : FileSystem) (csv_file_path : String) :
    Except PyError (List (List String)) :=
  match fs csv_file_path with
  | none => .error .fileNotFoundError
  | some content => .ok (csvGo .fstart [] [] content.data)

/-- `posixpath.join` restricted to two components, as `os.path.join`
behaves on POSIX systems: an absolute second component replaces the
path, otherwise a `/` separator is inserted unless the first component
is empty or already ends in `/`. -/
def osPathJoin (path b : String) : String :=
  if b.data.head? = some '/' then b
  else if path = "" ∨ path.data.getLast? = some '/' then path ++ b
  else path ++ "/" ++ b

namespace Settings

/-- `settings.BaseDir.BASE_DIR` is `os.path.realpath('../../')`, a value
that depends on the process's working directory; the constants below are
therefore parameterised by it. -/
def CSV_DIR (base : String) : String := osPathJoin base "csv_files"

/-- `settings.CsvDir.CALC`. -/
def CALC (base : String) : String := osPathJoin (CSV_DIR base) "calcs"

/-- `settings.DataDir.DATA_DIR`. -/
def DATA_DIR (base : String) : String := osPathJoin base "data"

/-- `settings.DataDir.GONG`. -/
def GONG (base : String) : String := osPathJoin (DATA_DIR base) "gong"

/-- `settings.DataDir.PSP`. -/
def PSP (base : String) : String := osPathJoin (DATA_DIR base) "psp"

/-- `settings.DataDir.SO`. -/
def SO (base : String) : String := osPathJoin (DATA_DIR base) "so"

/-- `settings.ImgDir.IMG_DIR`. -/
def IMG_DIR (base : String) : String := osPathJoin base "images"

end Settings

/-- Character stream of a timestamp in the spec's exact textual format
`YYYY-MM-DDTHH:MM:SS.ffffff` (all calendar fields zero-padded, exactly
six fractional digits).  This definition follows the spec's words; the
theorems below relate it to the parsers modelled from the code. -/
def renderChars (y m d h mi sec us : ℕ) : List Char :=
  natDigits 4 y ++ '-' :: (natDigits 2 m ++ '-' :: (natDigits 2 d ++
    'T' :: (natDigits 2 h ++ ':' :: (natDigits 2 mi ++ ':' ::
      (natDigits 2 sec ++ '.' :: natDigits 6 us)))))

/-- String form of `renderChars`. -/
def renderStrict (y m d h mi sec us : ℕ) : String :=
  String.mk (renderChars y m d h mi sec us)

/-- Character stream of one CSV record: the fields joined by commas. -/
def renderFields : List String → List Char
  | [] => []
  | [f] => f.data
  | f :: fs => f.data ++ ',' :: renderFields fs

/-- Character stream of a CSV file: one LF-terminated line per row. -/
def renderRows : List (List String) → List Char
  | [] => []
  | r :: rs => renderFields r ++ '\n' :: renderRows rs

/-- A character a plain (unquoted) CSV field may contain. -/
def goodChar (c : Char) : Prop :=
  c ≠ ',' ∧ c ≠ '"' ∧ c ≠ '\r' ∧ c ≠ '\n'

instance : DecidablePred goodChar := fun _ => by
  unfold goodChar; infer_instance

/-- A row that renders to one unambiguous CSV line: at least one field,
not the single empty field (whose line would be blank), and no
delimiter, quote or line-break characters inside fields. -/
def goodRow (r : List String) : Prop :=
  r ≠ [] ∧ r ≠ [""] ∧ ∀ f ∈ r, ∀ c ∈ f.data, goodChar c

instance : DecidablePred goodRow := fun _ => by
  unfold goodRow; infer_instance

/-! ### Arithmetic facts about digit runs -/

theorem natDigits_length (k n : ℕ) : (natDigits k n).length = k := by
  induction k generalizing n with
  | zero => rfl
  | succ k ih => simp [natDigits, ih]

theorem digitChar_isDigit {d : ℕ} (h : d < 10) :
    (Char.ofNat (48 + d)).isDigit = true := by
  interval_cases d <;> decide

theorem digitChar_toNat {d : ℕ} (h : d < 10) :
    (Char.ofNat (48 + d)).toNat = 48 + d := by
  interval_cases d <;> decide

theorem natDigits_isDigit (k n : ℕ) : ∀ c ∈ natDigits k n, c.isDigit = true := by
  induction k generalizing n with
  | zero => simp [natDigits]
  | succ k ih =>
    simp only [natDigits, List.mem_append, List.mem_singleton]
    rintro c (h | h)
    · exact ih _ _ h
    · subst h
      exact digitChar_isDigit (Nat.mod_lt _ (by omega))

theorem natVal_append (l : List Char) (c : Char) :
    natVal (l ++ [c]) = 10 * natVal l + (c.toNat - 48) := by
  simp [natVal, List.foldl_append]

theorem natVal_natDigits (k n : ℕ) (h : n < 10 ^ k) :
    natVal (natDigits k n) = n := by
  induction k generalizing n with
  | zero =>
    have : n = 0 := by simpa using h
    simp [this, natDigits, natVal]
  | succ k ih =>
    have hdiv : n / 10 < 10 ^ k := by
      rw [Nat.div_lt_iff_lt_mul (by omega)]
      calc n < 10 ^ (k + 1) := h
        _ = 10 ^ k * 10 := by ring
    rw [natDigits, natVal_append, ih _ hdiv,
      digitChar_toNat (Nat.mod_lt _ (by omega))]
    omega

/-- The character after a maximal digit run does not continue it. -/
def headNotDigit : List Char → Prop
  | [] => True
  | c :: _ => c.isDigit = false

theorem takeDigits_run (ds rest : List Char)
    (hds : ∀ c ∈ ds, c.isDigit = true) (hr : headNotDigit rest) :
    takeDigits (ds ++ rest) = (ds, rest) := by
  induction ds with
  | nil =>
    cases rest with
    | nil => rfl
    | cons c r =>
      simp only [headNotDigit] at hr
      simp [takeDigits, hr]
  | cons c ds ih =>
    have hc : c.isDigit = true := hds c (by simp)
    simp [takeDigits, hc, ih fun x hx => hds x (by simp [hx])]

theorem takeDigits_all (ds : List Char) (h : ∀ c ∈ ds, c.isDigit = true) :
    takeDigits ds = (ds, []) := by
  have h0 := takeDigits_run ds [] h trivial
  simpa using h0

/-! ### The parsers run over rendered fields -/

theorem parseYear_run (y : ℕ) (hy : y < 10000) (rest : List Char)
    (hr : headNotDigit rest) :
    parseYear (natDigits 4 y ++ rest) = some (y, rest) := by
  unfold parseYear
  rw [takeDigits_run _ _ (natDigits_isDigit 4 y) hr]
  simp [natDigits_length, natVal_natDigits 4 y (by omega)]

theorem parseNum2_run (lo hi n : ℕ) (hn : n < 100) (hlo : lo ≤ n)
    (hhi : n ≤ hi) (rest : List Char) (hr : headNotDigit rest) :
    parseNum2 lo hi (natDigits 2 n ++ rest) = some (n, rest) := by
  unfold parseNum2
  rw [takeDigits_run _ _ (natDigits_isDigit 2 n) hr]
  simp [natDigits_length, natVal_natDigits 2 n (by omega), hlo, hhi]

theorem expect_run (c : Char) (rest : List Char) :
    expect c (c :: rest) = some rest := by
  simp [expect]

theorem coreParse_run (y m d h mi sec us : ℕ)
    (hy : y < 10000) (hm1 : 1 ≤ m) (hm2 : m ≤ 12)
    (hd1 : 1 ≤ d) (hd2 : d ≤ 31) (hh : h ≤ 23) (hmi : mi ≤ 59)
    (hs : sec ≤ 61) (_hus : us < 1000000) :
    coreParse (renderChars y m d h mi sec us) =
      some ⟨y, m, d, h, mi, sec, some (natDigits 6 us)⟩ := by
  have h6 : natDigits 6 us ≠ [] := by
    intro hc
    have := natDigits_length 6 us
    rw [hc] at this
    simp at this
  unfold coreParse renderChars
  simp +decide only [parseYear_run y hy, expect_run,
    parseNum2_run 1 12 m (by omega) hm1 hm2,
    parseNum2_run 1 31 d (by omega) hd1 hd2,
    parseNum2_run 0 23 h (by omega) (by omega) hh,
    parseNum2_run 0 59 mi (by omega) (by omega) hmi,
    parseNum2_run 0 61 sec (by omega) (by omega) hs,
    takeDigits_all (natDigits 6 us) (natDigits_isDigit 6 us),
    headNotDigit, List.isEmpty_cons]
  simp [h6]

/-- Upper bound on month lengths, needed to pass `_strptime`'s day
range check. -/
theorem daysInMonth_le (y m : ℕ) : daysInMonth y m ≤ 31 := by
  unfold daysInMonth
  repeat' split
  all_goals omega

theorem strptime_render (y m d h mi sec us : ℕ)
    (hy1 : 1 ≤ y) (hy2 : y ≤ 9999) (hm1 : 1 ≤ m) (hm2 : m ≤ 12)
    (hd1 : 1 ≤ d) (hd2 : d ≤ daysInMonth y m) (hh : h ≤ 23)
    (hmi : mi ≤ 59) (hs : sec ≤ 59) (hus : us ≤ 999999) :
    strptime (renderStrict y m d h mi sec us) =
      some ⟨y, m, d, h, mi, sec, us⟩ := by
  have hd31 : d ≤ 31 := le_trans hd2 (daysInMonth_le y m)
  unfold strptime renderStrict
  rw [show (String.mk (renderChars y m d h mi sec us)).data =
        renderChars y m d h mi sec us from rfl,
    coreParse_run y m d h mi sec us (by omega) hm1 hm2 hd1 hd31 hh hmi
      (by omega) (by omega)]
  simp [natDigits_length, hy1, hd2, hs,
    natVal_natDigits 6 us (by omega)]

theorem timeFromString_render (y m d h mi sec us : ℕ)
    (hy2 : y ≤ 9999) (hm1 : 1 ≤ m) (hm2 : m ≤ 12)
    (hd1 : 1 ≤ d) (hd2 : d ≤ daysInMonth y m) (hh : h ≤ 23)
    (hmi : mi ≤ 59) (hs : sec ≤ 59) (hus : us ≤ 999999) :
    timeFromString (renderStrict y m d h mi sec us) =
      some ⟨jdFrom y m d h mi sec ⟨(us : ℤ), 10 ^ 6⟩, "isot"⟩ := by
  have hd31 : d ≤ 31 := le_trans hd2 (daysInMonth_le y m)
  unfold timeFromString renderStrict
  rw [show (String.mk (renderChars y m d h mi sec us)).data =
        renderChars y m d h mi sec us from rfl,
    coreParse_run y m d h mi sec us (by omega) hm1 hm2 hd1 hd31 hh hmi
      (by omega) (by omega)]
  simp [natDigits_length, hd2, hs,
    natVal_natDigits 6 us (by omega)]

/-! ### Path constant composition -/

theorem osPathJoin_plain (B b : String) (h1 : B ≠ "")
    (h2 : B.data.getLast? ≠ some '/') (h3 : b.data.head? ≠ some '/') :
    osPathJoin B b = B ++ "/" ++ b := by
  unfold osPathJoin
  rw [if_neg h3, if_neg (by simp [h1, h2])]

theorem join_plain_lit (B : String) (h1 : B ≠ "")
    (h2 : B.data.getLast? ≠ some '/') (b bs : String)
    (hb : b.data.head? ≠ some '/') (hbs : "/" ++ b = bs) :
    osPathJoin B b = B ++ bs := by
  rw [osPathJoin_plain B b h1 h2 hb, String.append_assoc, hbs]

theorem append_ne_empty (B u : String) (hu : u.data ≠ []) : B ++ u ≠ "" := by
  intro hc
  have hdata : (B ++ u).data = [] := by rw [hc]
  rw [String.data_append] at hdata
  exact hu (List.append_eq_nil.mp hdata).2

theorem append_getLast (B u : String) (c : Char)
    (h : u.data.getLast? = some c) : (B ++ u).data.getLast? = some c := by
  rw [String.data_append, List.getLast?_append, h]
  rfl

/-- C7: for every base-directory value (as `os.path.realpath` produces:
nonempty, no trailing separator), the derived path constants are exactly
the compositions of the spec's §4.1 table, for arbitrary bases including
ones with spaces or non-ASCII characters. -/
theorem settings_path_constants (B : String) (h1 : B ≠ "")
    (h2 : B.data.getLast? ≠ some '/') :
    Settings.CSV_DIR B = B ++ "/csv_files" ∧
    Settings.CALC B = B ++ "/csv_files/calcs" ∧
    Settings.DATA_DIR B = B ++ "/data" ∧
    Settings.GONG B = B ++ "/data/gong" ∧
    Settings.PSP B = B ++ "/data/psp" ∧
    Settings.SO B = B ++ "/data/so" ∧
    Settings.IMG_DIR B = B ++ "/images" := by
  have hcsv : Settings.CSV_DIR B = B ++ "/csv_files" :=
    join_plain_lit B h1 h2 "csv_files" "/csv_files" (by decide) (by decide)
  have hdata : Settings.DATA_DIR B = B ++ "/data" :=
    join_plain_lit B h1 h2 "data" "/data" (by decide) (by decide)
  have hcsv1 : (B ++ "/csv_files") ≠ "" :=
    append_ne_empty B "/csv_files" (by decide)
  have hcsv2 : (B ++ "/csv_files").data.getLast? ≠ some '/' := by
    rw [append_getLast B "/csv_files" 's' (by decide)]
    decide
  have hdata1 : (B ++ "/data") ≠ "" := append_ne_empty B "/data" (by decide)
  have hdata2 : (B ++ "/data").data.getLast? ≠ some '/' := by
    rw [append_getLast B "/data" 'a' (by decide)]
    decide
  refine ⟨hcsv, ?_, hdata, ?_, ?_, ?_, ?_⟩
  · unfold Settings.CALC
    rw [hcsv, join_plain_lit (B ++ "/csv_files") hcsv1 hcsv2 "calcs" "/calcs"
      (by decide) (by decide), String.append_assoc]
    exact congrArg (fun t => B ++ t) (by decide)
  · unfold Settings.GONG
    rw [hdata, join_plain_lit (B ++ "/data") hdata1 hdata2 "gong" "/gong"
      (by decide) (by decide), String.append_assoc]
    exact congrArg (fun t => B ++ t) (by decide)
  · unfold Settings.PSP
    rw [hdata, join_plain_lit (B ++ "/data") hdata1 hdata2 "psp" "/psp"
      (by decide) (by decide), String.append_assoc]
    exact congrArg (fun t => B ++ t) (by decide)
  · unfold Settings.SO
    rw [hdata, join_plain_lit (B ++ "/data") hdata1 hdata2 "so" "/so"
      (by decide) (by decide), String.append_assoc]
    exact congrArg (fun t => B ++ t) (by decide)
  · exact join_plain_lit B h1 h2 "images" "/images" (by decide) (by decide)

/-- Witness for C7 at a base path containing a space and non-ASCII
characters. -/
theorem settings_path_constants_witness :
    Settings.CSV_DIR "/home/tamar ervin/프로젝트" =
        "/home/tamar ervin/프로젝트/csv_files" ∧
    Settings.CALC "/home/tamar ervin/프로젝트" =
        "/home/tamar ervin/프로젝트/csv_files/calcs" ∧
    Settings.DATA_DIR "/home/tamar ervin/프로젝트" =
        "/home/tamar ervin/프로젝트/data" ∧
    Settings.GONG "/home/tamar ervin/프로젝트" =
        "/home/tamar ervin/프로젝트/data/gong" ∧
    Settings.PSP "/home/tamar ervin/프로젝트" =
        "/home/tamar ervin/프로젝트/data/psp" ∧
    Settings.SO "/home/tamar ervin/프로젝트" =
        "/home/tamar ervin/프로젝트/data/so" ∧
    Settings.IMG_DIR "/home/tamar ervin/프로젝트" =
        "/home/tamar ervin/프로젝트/images" := by
  have h := settings_path_constants "/home/tamar ervin/프로젝트"
    (by decide) (by decide)
  simpa using h

/-! ### `get_dates` -/

/-- Whether a Python call returned normally. -/
def isOkE {α : Type} (e : Except PyError α) : Bool :=
  match e with
  | .ok _ => true
  | .error _ => false

/-- Second component (the `date_obj` slot) of a normal return. -/
def dtSlot (e : Except PyError (String × Datetime × JdSlot)) : Option Datetime :=
  match e with
  | .ok r => some r.2.1
  | .error _ => none

/-- Third component (the `date_jd` slot) of a normal return. -/
def jdSlot (e : Except PyError (String × Datetime × JdSlot)) : Option JdSlot :=
  match e with
  | .ok r => some r.2.2
  | .error _ => none

/-- The string branch of `get_dates`, for any string both parsers
accept. -/
theorem get_dates_str_eq (s : String) (obj : Datetime) (t : AstropyTime)
    (h1 : strptime s = some obj) (h2 : timeFromString s = some t) :
    get_dates (.str s) = .ok (s, obj, .timeObj { t with format := "jd" }) := by
  have e : get_dates (.str s) =
      (match strptime s with
        | none => Except.error PyError.valueError
        | some obj =>
          match timeFromString s with
          | none => Except.error PyError.valueError
          | some t => Except.ok (s, obj, JdSlot.timeObj { t with format := "jd" })) := rfl
  rw [e, h1, h2]

/-- C2: a string in the exact `YYYY-MM-DDTHH:MM:SS.ffffff` format is
returned unchanged as the string form, and the datetime form carries
exactly the calendar fields written in the string (year, month, day,
hour, minute, second, microsecond). -/
theorem get_dates_exact_format (y m d h mi sec us : ℕ)
    (hy1 : 1 ≤ y) (hy2 : y ≤ 9999) (hm1 : 1 ≤ m) (hm2 : m ≤ 12)
    (hd1 : 1 ≤ d) (hd2 : d ≤ daysInMonth y m) (hh : h ≤ 23)
    (hmi : mi ≤ 59) (hs : sec ≤ 59) (hus : us ≤ 999999) :
    get_dates (.str (renderStrict y m d h mi sec us)) =
      .ok (renderStrict y m d h mi sec us, ⟨y, m, d, h, mi, sec, us⟩,
        .timeObj ⟨jdFrom y m d h mi sec ⟨(us : ℤ), 10 ^ 6⟩, "jd"⟩) :=
  get_dates_str_eq _ _ _
    (strptime_render y m d h mi sec us hy1 hy2 hm1 hm2 hd1 hd2 hh hmi hs hus)
    (timeFromString_render y m d h mi sec us hy2 hm1 hm2 hd1 hd2 hh hmi hs hus)

/-- Witness for C2 at the spec's example string
`"2022-09-19T12:00:00.000000"`. -/
theorem get_dates_exact_format_witness :
    renderStrict 2022 9 19 12 0 0 0 = "2022-09-19T12:00:00.000000" ∧
    get_dates (.str (renderStrict 2022 9 19 12 0 0 0)) =
      .ok (renderStrict 2022 9 19 12 0 0 0, ⟨2022, 9, 19, 12, 0, 0, 0⟩,
        .timeObj ⟨jdFrom 2022 9 19 12 0 0 ⟨(0 : ℤ), 10 ^ 6⟩, "jd"⟩) :=
  ⟨by decide,
    get_dates_exact_format 2022 9 19 12 0 0 0 (by decide) (by decide)
      (by decide) (by decide) (by decide) (by decide) (by decide)
      (by decide) (by decide) (by decide)⟩

/-- C1 (code evidence): on a well-formed string input the function does
return the 3-tuple in the fixed order (string, datetime, Julian Date),
but the third component is an astropy `Time` object whose `format` was
set to `"jd"`, not a Python float, contradicting the function's own
docstring `date_jd : float`. -/
theorem get_dates_third_slot_time_object :
    get_dates (.str "2022-09-19T12:00:00.000000") =
      .ok ("2022-09-19T12:00:00.000000", ⟨2022, 9, 19, 12, 0, 0, 0⟩,
        .timeObj ⟨jdFrom 2022 9 19 12 0 0 ⟨0, 1000000⟩, "jd"⟩) := by
  decide

/-- C3: in the float branch, the Julian-Date slot of the result is the
input float itself, echoed unchanged. -/
theorem get_dates_float_echoes_jd (x : Frac)
    (h : isOkE (get_dates (.float x)) = true) :
    jdSlot (get_dates (.float x)) = some (.float x) := by
  have e : get_dates (.float x) =
      (match datetimeOfJD x with
        | none => Except.error PyError.valueError
        | some obj => Except.ok (strftimeS obj, obj, JdSlot.float x)) := rfl
  rw [e] at h ⊢
  cases hds : datetimeOfJD x with
  | none =>
    rw [hds] at h
    simp [isOkE] at h
  | some obj => rfl

/-- Witness for C3 at Julian Date 2459842 (2022-09-19 12:00 UT). -/
theorem get_dates_float_echoes_jd_witness :
    jdSlot (get_dates (.float ⟨2459842, 1⟩)) = some (.float ⟨2459842, 1⟩) :=
  get_dates_float_echoes_jd ⟨2459842, 1⟩ (by decide)

section

attribute [local irreducible] strftimeS

/-- C4: in the datetime-like branch, the datetime slot of the result is
the input object itself, echoed unchanged. -/
theorem get_dates_datetime_echoes (D : Datetime)
    (h : isOkE (get_dates (.datetime D)) = true) :
    dtSlot (get_dates (.datetime D)) = some D := by
  have e : get_dates (.datetime D) =
      (match timeFromString (strftimeS D) with
        | none => Except.error PyError.valueError
        | some t =>
          Except.ok (strftimeS D, D, JdSlot.timeObj { t with format := "jd" })) := rfl
  rw [e] at h ⊢
  cases ht : timeFromString (strftimeS D) with
  | none =>
    rw [ht] at h
    simp [isOkE] at h
  | some t => rfl

/-- Witness for C4 at the datetime 2022-09-19 12:00:00. -/
theorem get_dates_datetime_echoes_witness :
    dtSlot (get_dates (.datetime ⟨2022, 9, 19, 12, 0, 0, 0⟩)) =
      some ⟨2022, 9, 19, 12, 0, 0, 0⟩ :=
  get_dates_datetime_echoes ⟨2022, 9, 19, 12, 0, 0, 0⟩ (by
    have e : get_dates (.datetime (⟨2022, 9, 19, 12, 0, 0, 0⟩ : Datetime)) =
        (match timeFromString (strftimeS ⟨2022, 9, 19, 12, 0, 0, 0⟩) with
          | none => Except.error PyError.valueError
          | some t =>
            Except.ok (strftimeS ⟨2022, 9, 19, 12, 0, 0, 0⟩,
              (⟨2022, 9, 19, 12, 0, 0, 0⟩ : Datetime),
              JdSlot.timeObj { t with format := "jd" })) := rfl
    have hs : strftimeS ⟨2022, 9, 19, 12, 0, 0, 0⟩ =
        "2022-09-19T12:00:00.1663588800" := by
      unfold strftimeS
      decide
    have ht : timeFromString "2022-09-19T12:00:00.1663588800" =
        some ⟨jdFrom 2022 9 19 12 0 0 ⟨1663588800, 10000000000⟩, "isot"⟩ := by
      decide
    rw [e, hs, ht]
    rfl)

end

/-- C5 counterexample: `"2022-09-19T12:00:00.5"` does not match the
exact format (six fractional digits required), yet `get_dates` accepts
it, because `strptime`'s `%f` takes one to six digits; no failure is
signalled. -/
theorem get_dates_accepts_inexact_string :
    get_dates (.str "2022-09-19T12:00:00.5") =
      .ok ("2022-09-19T12:00:00.5", ⟨2022, 9, 19, 12, 0, 0, 500000⟩,
        .timeObj ⟨jdFrom 2022 9 19 12 0 0 ⟨5, 10⟩, "jd"⟩) := by
  decide

/-- C5 (amended): a string the lenient `strptime` parse of
`%Y-%m-%dT%H:%M:%S.%f` rejects makes `get_dates` signal `ValueError`
(InvalidInput) and return no value. -/
theorem get_dates_rejects_unparseable (s : String)
    (h : strptime s = none) : get_dates (.str s) = .error .valueError := by
  have e : get_dates (.str s) =
      (match strptime s with
        | none => Except.error PyError.valueError
        | some obj =>
          match timeFromString s with
          | none => Except.error PyError.valueError
          | some t => Except.ok (s, obj, JdSlot.timeObj { t with format := "jd" })) := rfl
  rw [e, h]

/-- Witness for the amended C5 at `"not-a-date"`. -/
theorem get_dates_rejects_unparseable_witness :
    get_dates (.str "not-a-date") = .error .valueError :=
  get_dates_rejects_unparseable "not-a-date" (by decide)

/-- C9: round-trip stability -- a second call on the string form of a
successful string-input call returns the identical triple. -/
theorem get_dates_string_stable (s : String) (r : String × Datetime × JdSlot)
    (h : get_dates (.str s) = .ok r) : get_dates (.str r.1) = .ok r := by
  have e : get_dates (.str s) =
      (match strptime s with
        | none => Except.error PyError.valueError
        | some obj =>
          match timeFromString s with
          | none => Except.error PyError.valueError
          | some t => Except.ok (s, obj, JdSlot.timeObj { t with format := "jd" })) := rfl
  cases hp : strptime s with
  | none =>
    rw [e, hp] at h
    exact Except.noConfusion h
  | some obj =>
    cases ht : timeFromString s with
    | none =>
      rw [e, hp, ht] at h
      exact Except.noConfusion h
    | some t =>
      rw [get_dates_str_eq s obj t hp ht] at h
      injection h with h2
      subst h2
      exact get_dates_str_eq s obj t hp ht

/-- Witness for C9 at `"2022-09-19T12:00:00.000000"`. -/
theorem get_dates_string_stable_witness :
    get_dates (.str (("2022-09-19T12:00:00.000000",
        (⟨2022, 9, 19, 12, 0, 0, 0⟩ : Datetime),
        JdSlot.timeObj ⟨jdFrom 2022 9 19 12 0 0 ⟨0, 1000000⟩, "jd"⟩) :
          String × Datetime × JdSlot).1) =
      .ok ("2022-09-19T12:00:00.000000", ⟨2022, 9, 19, 12, 0, 0, 0⟩,
        .timeObj ⟨jdFrom 2022 9 19 12 0 0 ⟨0, 1000000⟩, "jd"⟩) :=
  get_dates_string_stable "2022-09-19T12:00:00.000000" _ (by decide)

/-- C10: a Python `int` is neither `str` nor `float`, so it falls
through to the datetime-like branch, where `date.strftime` raises
`AttributeError`; integer Julian Dates are never accepted. -/
theorem get_dates_int_rejected (n : ℤ) :
    get_dates (.int n) = .error .attributeError := rfl

/-! ### The CSV reader on rendered row lists -/

theorem renderFields_single (f : String) : renderFields [f] = f.data := rfl

theorem renderFields_cons2 (f g : String) (fs : List String) :
    renderFields (f :: g :: fs) = f.data ++ ',' :: renderFields (g :: fs) := rfl

theorem csvGo_nil : csvGo .fstart [] [] [] = [] := by
  rw [csvGo.eq_def]

theorem csvGo_fstart_char (c : Char) (hc : goodChar c) (field : List Char)
    (row : List String) (cs : List Char) :
    csvGo .fstart field row (c :: cs) = csvGo .infield (c :: field) row cs := by
  obtain ⟨h1, h2, h3, h4⟩ := hc
  rw [csvGo.eq_def]
  simp [h1, h2, h3, h4]

theorem csvGo_infield_char (c : Char) (hc : goodChar c) (field : List Char)
    (row : List String) (cs : List Char) :
    csvGo .infield field row (c :: cs) = csvGo .infield (c :: field) row cs := by
  obtain ⟨h1, h2, h3, h4⟩ := hc
  rw [csvGo.eq_def]
  simp [h1, h2, h3, h4]

theorem csvGo_fstart_comma (field : List Char) (row : List String)
    (cs : List Char) :
    csvGo .fstart field row (',' :: cs) =
      csvGo .fstart [] (String.mk field.reverse :: row) cs := by
  rw [csvGo.eq_def]
  simp

theorem csvGo_infield_comma (field : List Char) (row : List String)
    (cs : List Char) :
    csvGo .infield field row (',' :: cs) =
      csvGo .fstart [] (String.mk field.reverse :: row) cs := by
  rw [csvGo.eq_def]
  simp

theorem csvGo_fstart_nl (field : List Char) (row : List String)
    (cs : List Char) :
    csvGo .fstart field row ('\n' :: cs) =
      (if row = [] then [] else (String.mk field.reverse :: row).reverse)
        :: csvGo .fstart [] [] cs := by
  rw [csvGo.eq_def]
  simp

theorem csvGo_infield_nl (field : List Char) (row : List String)
    (cs : List Char) :
    csvGo .infield field row ('\n' :: cs) =
      (String.mk field.reverse :: row).reverse :: csvGo .fstart [] [] cs := by
  rw [csvGo.eq_def]
  simp

theorem csvGo_infield_run (cs : List Char) (h : ∀ c ∈ cs, goodChar c)
    (field : List Char) (row : List String) (rest : List Char) :
    csvGo .infield field row (cs ++ rest) =
      csvGo .infield (cs.reverse ++ field) row rest := by
  induction cs generalizing field with
  | nil => simp
  | cons c cs ih =>
    rw [List.cons_append, csvGo_infield_char c (h c (by simp)),
      ih (fun x hx => h x (by simp [hx])) (c :: field)]
    simp

theorem csvGo_row (fields : List String) (row : List String)
    (rest : List Char)
    (hgood : ∀ f ∈ fields, ∀ c ∈ f.data, goodChar c)
    (hne : fields ≠ []) (hblank : row = [] → fields ≠ [""]) :
    csvGo .fstart [] row (renderFields fields ++ '\n' :: rest) =
      (row.reverse ++ fields) :: csvGo .fstart [] [] rest := by
  induction fields generalizing row with
  | nil => exact absurd rfl hne
  | cons f fs ih =>
    cases fs with
    | nil =>
      obtain ⟨fd⟩ := f
      cases fd with
      | nil =>
        by_cases hrow : row = []
        · exact absurd rfl (hblank hrow)
        · rw [renderFields_single, show (String.mk [] : String).data = [] from rfl,
            List.nil_append, csvGo_fstart_nl, if_neg hrow]
          simp
      | cons c cs =>
        have hc : goodChar c :=
          hgood ⟨c :: cs⟩ (by simp) c (List.mem_cons_self c cs)
        rw [renderFields_single, show (String.mk (c :: cs) : String).data = c :: cs from rfl,
          List.cons_append, csvGo_fstart_char c hc,
          csvGo_infield_run cs
            (fun x hx => hgood ⟨c :: cs⟩ (by simp) x (List.mem_cons_of_mem c hx)),
          csvGo_infield_nl]
        simp
    | cons f2 fs2 =>
      obtain ⟨fd⟩ := f
      cases fd with
      | nil =>
        rw [renderFields_cons2, show (String.mk [] : String).data = [] from rfl,
          List.nil_append, List.cons_append, csvGo_fstart_comma,
          ih (String.mk [].reverse :: row)
            (fun x hx => hgood x (List.mem_cons_of_mem _ hx))
            (List.cons_ne_nil f2 fs2)
            (fun hr => absurd hr (List.cons_ne_nil _ _))]
        simp
      | cons c cs =>
        have hc : goodChar c :=
          hgood ⟨c :: cs⟩ (by simp) c (List.mem_cons_self c cs)
        rw [renderFields_cons2, show (String.mk (c :: cs) : String).data = c :: cs from rfl]
        rw [List.append_assoc, List.cons_append,
          csvGo_fstart_char c hc,
          csvGo_infield_run cs
            (fun x hx => hgood ⟨c :: cs⟩ (by simp) x (List.mem_cons_of_mem c hx)),
          List.cons_append, csvGo_infield_comma,
          ih (String.mk (cs.reverse ++ [c]).reverse :: row)
            (fun x hx => hgood x (List.mem_cons_of_mem _ hx))
            (List.cons_ne_nil f2 fs2)
            (fun hr => absurd hr (List.cons_ne_nil _ _))]
        simp

/-- The reader recovers exactly the rows of a rendered CSV file. -/
theorem parse_renderRows (rows : List (List String))
    (h : ∀ r ∈ rows, goodRow r) :
    csvGo .fstart [] [] (renderRows rows) = rows := by
  induction rows with
  | nil =>
    rw [renderRows]
    exact csvGo_nil
  | cons r rs ih =>
    obtain ⟨h1, h2, h3⟩ := h r (by simp)
    rw [renderRows, csvGo_row r [] _ h3 h1 (fun _ => h2),
      ih (fun x hx => h x (by simp [hx]))]
    simp

/-- C6: `read_csv` returns exactly the file's rows in order as lists of
string fields, with no header handling and no type coercion, and an
empty file (`rows = []`) yields an empty list of rows. -/
theorem read_csv_returns_rows (fs : FileSystem) (path : String)
    (rows : List (List String)) (s : String)
    (hfs : fs path = some s) (hdata : s.data = renderRows rows)
    (h : ∀ r ∈ rows, goodRow r) :
    read_csv fs path = .ok rows := by
  unfold read_csv
  rw [hfs]
  show Except.ok (csvGo .fstart [] [] s.data) = Except.ok rows
  rw [hdata, parse_renderRows rows h]

/-- Witness for C6: the spec's two-line example file and an empty
file. -/
theorem read_csv_returns_rows_witness :
    read_csv
        (fun p => if p = "dates.csv" then some "a,b,c\n1,2,3\n"
          else if p = "empty.csv" then some "" else none)
        "dates.csv" = .ok [["a", "b", "c"], ["1", "2", "3"]] ∧
    read_csv
        (fun p => if p = "dates.csv" then some "a,b,c\n1,2,3\n"
          else if p = "empty.csv" then some "" else none)
        "empty.csv" = .ok [] :=
  ⟨read_csv_returns_rows _ "dates.csv" [["a", "b", "c"], ["1", "2", "3"]]
      "a,b,c\n1,2,3\n" (by decide) (by decide) (by decide),
    read_csv_returns_rows _ "empty.csv" [] "" (by decide) (by decide)
      (by decide)⟩

/-- C8: `read_csv` on a path that does not exist (or cannot be opened)
signals `FileNotFoundError` and returns no rows. -/
theorem read_csv_missing_file (fs : FileSystem) (path : String)
    (h : fs path = none) :
    read_csv fs path = .error .fileNotFoundError := by
  unfold read_csv
  rw [h]

/-- Witness for C8 at an empty file system. -/
theorem read_csv_missing_file_witness :
    read_csv (fun _ => none) "missing.csv" = .error .fileNotFoundError :=
  read_csv_missing_file (fun _ => none) "missing.csv" rfl

end MagModel
